import Mathlib

/-!
Shallow embedding of the vbox VM management tool (src/vbox/config.py,
src/vbox/json_file.py, src/vbox/manager.py) and proofs about its
registry validation, registry mutation, state parsing and retry loops.

Modelling conventions:
- A parsed JSON registry dictionary is `RawRegistry`: the `vms` and
  `current` keys may each be absent (`none`), matching the dictionary
  access / KeyError behaviour of the Python code.
- The persisted file is `FileState`: absent, unparsable, or holding a
  parsed registry. Writing never produces `malformed` content because
  `json.dump` of a well-formed value always emits well-formed JSON.
- Python exceptions become `Except` errors; an operation that raises
  leaves the file untouched, which `runOp` makes explicit.
- The external VBoxManage / ssh subprocess calls are modelled as input
  streams: a state query yields `QueryResult` (process failure or raw
  stdout text), an ssh attempt yields a `Bool` (exit status zero or not).
-/

namespace VBox

/-- One VM definition dictionary: vbox/config.py stores entries of the
form `\x7b"name": ..., "address": ...\x7d`. -/
structure VMConfig where
  name : String
  address : String
deriving DecidableEq, Repr

/-- The parsed registry dictionary. Either top-level key may be missing,
as in a hand-edited or legacy file; `_validate` checks for both. -/
structure RawRegistry where
  vms : Option (List VMConfig)
  current : Option String
deriving DecidableEq, Repr

/-- Errors of vbox/json_file.py: `JsonFileNotFoundError` and
`InvalidDataError reason`. -/
inductive JsonError where
  | notFound
  | invalidData (reason : String)
deriving DecidableEq, Repr

/-- Embeds `_find_vm_config` (config.py): scan `config["vms"]` in order
and return the first entry whose name equals `name`; `none` models the
`VMNotFoundError` raise. -/
def find_vm_config (vms : List VMConfig) (name : String) : Option VMConfig :=
  vms.find? (fun vm => vm.name == name)

/-- Embeds `_validate` (config.py): require the `vms` key, require the
`current` key, then require `_find_vm_config` to succeed on the current
name; each failure raises `InvalidDataError` with the given reason. -/
def _validate (config : RawRegistry) : Except JsonError Unit :=
  match config.vms with
  | none => .error (.invalidData "Missing list of VMs")
  | some vms =>
    match config.current with
    | none => .error (.invalidData "Missing current VM")
    | some current_vm_name =>
      match find_vm_config vms current_vm_name with
      | some _ => .ok ()
      | none =>
        .error (.invalidData
          ("Current VM " ++ current_vm_name ++ " does not exist in config"))

/-- The persisted config file: absent (open raises IOError), present but
not parsable as JSON (json.load raises ValueError), or parsed data. -/
inductive FileState where
  | absent
  | malformed (reason : String)
  | data (r : RawRegistry)
deriving DecidableEq, Repr

/-- Embeds `JsonFile.read` (json_file.py): IOError becomes
`JsonFileNotFoundError`, a JSON parse error becomes `InvalidDataError`,
and when `validate` is true the `_validate` hook runs on the data. -/
def jf_read (validate : Bool) (fs : FileState) : Except JsonError RawRegistry :=
  match fs with
  | .absent => .error .notFound
  | .malformed reason => .error (.invalidData reason)
  | .data r =>
    if validate then
      match _validate r with
      | .error e => .error e
      | .ok () => .ok r
    else .ok r

/-- Embeds `JsonFile.write` (json_file.py): when `validate` is true the
`_validate` hook runs on the data BEFORE the file is opened for writing,
so a validation failure leaves the old file content in place; on success
the whole file is replaced by the new data. -/
def jf_write (validate : Bool) (r : RawRegistry) : Except JsonError FileState :=
  if validate then
    match _validate r with
    | .error e => .error e
    | .ok () => .ok (.data r)
  else .ok (.data r)

/-- Embeds `JsonFile.modify` (json_file.py): read with validation, apply
the mutation to the in-memory value, write back with validation. -/
def jf_modify (validate : Bool) (f : RawRegistry → RawRegistry) (fs : FileState) :
    Except JsonError FileState :=
  match jf_read validate fs with
  | .error e => .error e
  | .ok r => jf_write validate (f r)

/-- Exception semantics of an operation on the file: on success the file
becomes the returned state, on a raise the file keeps its old state and
the error propagates. -/
def runOp (op : FileState → Except JsonError FileState) (fs : FileState) :
    FileState × Option JsonError :=
  match op fs with
  | .ok newFs => (newFs, none)
  | .error e => (fs, some e)

/-- Embeds the mutation body of `Config.add_or_update_vm` applied to the
found entry: `vm_config["address"] = address` overwrites the address of
the FIRST entry carrying the name, leaving every other entry unchanged. -/
def updateFirstAddress (name address : String) : List VMConfig → List VMConfig
  | [] => []
  | vm :: rest =>
    if vm.name == name then { vm with address := address } :: rest
    else vm :: updateFirstAddress name address rest

/-- Embeds the `modify` body of `Config.add_or_update_vm` (config.py):
look up `name`; if absent, append a new entry and set its address; if
present, overwrite the address of the found (first) entry. The `none`
branch on `vms` is unreachable through `modify`, which validates on
read; in Python it would be a KeyError. -/
def add_or_update_vm_fn (name address : String) (r : RawRegistry) : RawRegistry :=
  match r.vms with
  | none => r
  | some vms =>
    match find_vm_config vms name with
    | some _ => { r with vms := some (updateFirstAddress name address vms) }
    | none => { r with vms := some (vms ++ [⟨name, address⟩]) }

/-- Embeds the `modify` body of `Config.remove_vm` (config.py): keep the
entries whose name differs from `name`. The `none` branch on `vms` is
unreachable through `modify` (KeyError in Python). -/
def remove_vm_fn (name : String) (r : RawRegistry) : RawRegistry :=
  match r.vms with
  | none => r
  | some vms => { r with vms := some (vms.filter (fun vm => vm.name != name)) }

/-- Embeds the `modify` body of `Config.set_current_vm` (config.py):
set `current` to `name` unconditionally. -/
def set_current_vm_fn (name : String) (r : RawRegistry) : RawRegistry :=
  { r with current := some name }

/-- Embeds `Config.create` (config.py): unconditionally write a registry
holding exactly one entry with the given name and address and with
`current` set to that name. No check of the prior file state is made. -/
def create_op (name address : String) : FileState → Except JsonError FileState :=
  fun _fs => jf_write true ⟨some [⟨name, address⟩], some name⟩

/-- Config.add_or_update_vm as a file operation (one validated modify). -/
def add_or_update_vm_op (name address : String) :
    FileState → Except JsonError FileState :=
  jf_modify true (add_or_update_vm_fn name address)

/-- Config.remove_vm as a file operation (one validated modify). -/
def remove_vm_op (name : String) : FileState → Except JsonError FileState :=
  jf_modify true (remove_vm_fn name)

/-- Config.set_current_vm as a file operation (one validated modify). -/
def set_current_vm_op (name : String) : FileState → Except JsonError FileState :=
  jf_modify true (set_current_vm_fn name)

/-- Lookup of a name inside a raw registry, as `_find_vm_config` does on
the parsed dictionary (`config["vms"]`; a missing key would be a
KeyError, modelled as no result). -/
def find_vm_config_raw (r : RawRegistry) (name : String) : Option VMConfig :=
  match r.vms with
  | none => none
  | some vms => find_vm_config vms name

/-! Manager side: vbox/manager.py. -/

/-- Outcome of one `VBoxManage showvminfo --machinereadable` run:
non-zero exit (subprocess.CalledProcessError) or captured stdout. -/
inductive QueryResult where
  | failure
  | output (text : String)
deriving DecidableEq, Repr

/-- Errors of vbox/manager.py carrying their payloads:
`StateUnavailableError(name)`, `VBoxManageOutputParseError`,
`ShutdownFailure(name)`, `ConnectionFailure(address, tries)`. -/
inductive ManagerError where
  | stateUnavailable (name : String)
  | outputParseError (name : String)
  | shutdownFailure (name : String)
  | connectionFailure (address : String) (tries : Nat)
deriving DecidableEq, Repr

/-- Splitting of a text blob into lines at the newline character; under
re.MULTILINE, `^` and `$` anchor exactly at these boundaries and `.`
never crosses them, so the multiline search of `get_state` is a search
over these lines. -/
def splitLinesAux : List Char → List Char → List String
  | [], acc => [String.mk acc.reverse]
  | c :: cs, acc =>
    if c = '\n' then String.mk acc.reverse :: splitLinesAux cs []
    else splitLinesAux cs (c :: acc)

/-- Lines of a text blob (see `splitLinesAux`). -/
def splitLines (s : String) : List String := splitLinesAux s.data []

/-- One line of the regex match of `VMManager.get_state`: the pattern
`VMState="(.*)"` anchored by `^` and `$` under re.MULTILINE matches a
whole line beginning with the literal `VMState="` and ending with `"`,
the two quotes distinct; the greedy group captures everything between
the opening quote and the final character of the line. -/
def vmStateLineToken (line : String) : Option String :=
  match line.data with
  | 'V' :: 'M' :: 'S' :: 't' :: 'a' :: 't' :: 'e' :: '=' :: '"' :: rest =>
    match rest.reverse with
    | '"' :: revToken => some (String.mk revToken.reverse)
    | _ => none
  | _ => none

/-- Embeds `VMManager.get_state` (manager.py): a failed showvminfo run
raises `StateUnavailableError`; otherwise `re.search` with re.MULTILINE
finds the first line of the output matching `VMState="(.*)"` and the
captured token is returned; with no matching line,
`VBoxManageOutputParseError` is raised. -/
def get_state (name : String) (q : QueryResult) : Except ManagerError String :=
  match q with
  | .failure => .error (.stateUnavailable name)
  | .output text =>
    match (splitLines text).findSome? vmStateLineToken with
    | some token => .ok token
    | none => .error (.outputParseError name)

/-- Embeds `VMManager.is_running` (manager.py): `get_state` compared to
the literal "running"; both `StateUnavailableError` and
`VBoxManageOutputParseError` are caught and reported as False. -/
def is_running (name : String) (q : QueryResult) : Bool :=
  match get_state name q with
  | .ok s => s == "running"
  | .error _ => false

/-- The try/except around `get_state` inside `_wait_for_shutdown`:
both error kinds collapse to `None`. -/
def tryGetState (name : String) (q : QueryResult) : Option String :=
  match get_state name q with
  | .ok s => some s
  | .error _ => none

/-- The while loop of `_wait_for_shutdown`: while the last observed
state differs from "poweroff" and tries remain, sleep, query the state
again (failures becoming `none`) and decrement. Returns the final state
together with the total number of `get_state` calls made (`idx` counts
the calls already made when the loop starts). -/
def waitLoop (name : String) (queries : Nat → QueryResult) :
    Nat → Option String → Nat → Option String × Nat
  | 0, state, idx => (state, idx)
  | remaining + 1, state, idx =>
    if state = some "poweroff" then (state, idx)
    else waitLoop name queries remaining (tryGetState name (queries idx)) (idx + 1)

/-- Outcome of `_wait_for_shutdown`: the raised error if the final state
never reached "poweroff", plus the number of `get_state` calls made. -/
structure ShutdownWaitResult where
  result : Except ManagerError Unit
  statePolls : Nat
deriving Repr

/-- Embeds `VMManager._wait_for_shutdown` (manager.py): one `get_state`
before the loop (failures become `None`), then the bounded poll loop;
if the final state is not the literal "poweroff", raise
`ShutdownFailure(name)`. `queries i` is the result of the i-th
`get_state` subprocess run made by this function. -/
def wait_for_shutdown (name : String) (queries : Nat → QueryResult) (tries : Nat) :
    ShutdownWaitResult :=
  let p := waitLoop name queries tries (tryGetState name (queries 0)) 1
  { result :=
      if p.1 = some "poweroff" then .ok ()
      else .error (.shutdownFailure name),
    statePolls := p.2 }

/-- What `VMManager.stop` did before finishing: whether the
acpipowerbutton request was issued, and the wait-loop outcome. -/
structure StopResult where
  shutdownRequested : Bool
  wait : ShutdownWaitResult
deriving Repr

/-- Embeds `VMManager.stop` (manager.py): `is_running` consumes the
first state query; when running, `VBoxManage controlvm <name>
acpipowerbutton` runs via subprocess.check_call (`shutdownOk = false`
models a non-zero exit, whose CalledProcessError propagates, modelled
as `none`); in every non-raising path `_wait_for_shutdown` then runs
with its default budget of 20 tries, consuming the state queries from
index 1 on. -/
def stop (name : String) (queries : Nat → QueryResult) (shutdownOk : Bool) :
    Option StopResult :=
  let running := is_running name (queries 0)
  if running && !shutdownOk then none
  else some
    { shutdownRequested := running,
      wait := wait_for_shutdown name (fun i => queries (i + 1)) 20 }

/-- Outcome of `VMManager.connect`: success flag, number of ssh
subprocess invocations, total seconds slept, and the raised
`ConnectionFailure` when every try failed. -/
structure ConnectResult where
  ok : Bool
  sshCalls : Nat
  totalSleep : Nat
  failure : Option ManagerError
deriving DecidableEq, Repr

/-- The while loop of `VMManager.connect`: while not successful and
tries remain, run ssh; a non-zero exit decrements the remaining tries
and sleeps the full retry interval; exit code zero sets success.
Returns (success, ssh calls made, seconds slept), with `idx` the calls
and `slept` the seconds accumulated before the loop iteration. -/
def connectLoop (ssh : Nat → Bool) (retry_interval : Nat) :
    Nat → Nat → Nat → Bool × Nat × Nat
  | 0, idx, slept => (false, idx, slept)
  | remaining + 1, idx, slept =>
    if ssh idx then (true, idx + 1, slept)
    else connectLoop ssh retry_interval remaining (idx + 1) (slept + retry_interval)

/-- Embeds `VMManager.connect` (manager.py) after address resolution:
the bounded retry loop over `ssh <address>`, and on exhaustion the
raise of `ConnectionFailure(address, tries)` carrying the ORIGINAL
tries parameter. `ssh i` tells whether the i-th ssh invocation exits
with status zero. -/
def connect (ssh : Nat → Bool) (address : String) (tries retry_interval : Nat) :
    ConnectResult :=
  let p := connectLoop ssh retry_interval tries 0 0
  { ok := p.1,
    sshCalls := p.2.1,
    totalSleep := p.2.2,
    failure := if p.1 then none else some (.connectionFailure address tries) }

end VBox

namespace VBox

/-! Helper lemmas shared by the claim theorems. -/

lemma find_vm_config_isSome_iff (vms : List VMConfig) (n : String) :
    (find_vm_config vms n).isSome ↔ ∃ vm ∈ vms, vm.name = n := by
  simp [find_vm_config, List.find?_isSome]

lemma validate_ok_iff (r : RawRegistry) :
    _validate r = Except.ok () ↔
      ∃ vms current, r.vms = some vms ∧ r.current = some current ∧
        ∃ vm ∈ vms, vm.name = current := by
  obtain ⟨v, c⟩ := r
  cases v with
  | none => simp [_validate]
  | some vms =>
    cases c with
    | none => simp [_validate]
    | some cur =>
      have hfind := find_vm_config_isSome_iff vms cur
      cases h : find_vm_config vms cur with
      | none =>
        rw [h] at hfind
        simp only [_validate, h]
        simp only [Option.isSome_none, Bool.false_eq_true, false_iff] at hfind
        simp [hfind]
      | some vm =>
        rw [h] at hfind
        simp only [Option.isSome_some, true_iff] at hfind
        simp [_validate, h, hfind]

lemma validate_ok_vms (r : RawRegistry) (h : _validate r = Except.ok ()) :
    ∃ vms, r.vms = some vms := by
  obtain ⟨vms, _, hv, _, _⟩ := (validate_ok_iff r).mp h
  exact ⟨vms, hv⟩

lemma find_vm_config_filter_ne (vms : List VMConfig) (name : String) :
    find_vm_config (vms.filter (fun vm => vm.name != name)) name = none := by
  rw [find_vm_config, List.find?_eq_none]
  intro x hx
  have hp := List.of_mem_filter hx
  simp only [bne_iff_ne, ne_eq] at hp
  simp [hp]

/-- C2. The claim is false on the code: `_validate` unconditionally runs
`_find_vm_config` on the current name, and on an empty `vms` list that
lookup never succeeds, so a registry with an empty list is ALWAYS
rejected (here with current "dev"), contradicting the claimed
"a registry with an empty vms list and any current value passes
validation". -/
theorem c2_counterexample_empty_vms_rejected :
    _validate ⟨some [], some "dev"⟩ =
      Except.error (JsonError.invalidData "Current VM dev does not exist in config") ∧
    _validate ⟨some [], some "dev"⟩ ≠ Except.ok () := by
  refine ⟨rfl, fun h => ?_⟩
  simp [_validate, find_vm_config] at h

/-- C2 (amended). The registry validator accepts a parsed registry if
and only if it has a `vms` list, a `current` field, and `current` names
an entry present in `vms` — unconditionally, so a registry with an
empty `vms` list never passes validation. -/
theorem c2_validate_accepts_iff (r : RawRegistry) :
    _validate r = Except.ok () ↔
      ∃ vms current, r.vms = some vms ∧ r.current = some current ∧
        ∃ vm ∈ vms, vm.name = current :=
  validate_ok_iff r

/-- Witness for C2 (amended): a singleton registry whose current names
its only entry passes validation. -/
theorem c2_witness :
    _validate ⟨some [⟨"dev", "10.0.0.5"⟩], some "dev"⟩ = Except.ok () :=
  (c2_validate_accepts_iff ⟨some [⟨"dev", "10.0.0.5"⟩], some "dev"⟩).mpr
    ⟨[⟨"dev", "10.0.0.5"⟩], "dev", rfl, rfl, ⟨"dev", "10.0.0.5"⟩, by simp, rfl⟩

/-- C9. The claim is false on the code: the validator never checks for
duplicate names, so a registry in which TWO entries carry the current
name passes validation, and `current` does not resolve to exactly one
entry. -/
theorem c9_counterexample_duplicate_names :
    _validate ⟨some [⟨"a", "1"⟩, ⟨"a", "2"⟩], some "a"⟩ = Except.ok () ∧
    (([⟨"a", "1"⟩, ⟨"a", "2"⟩] : List VMConfig).filter
        (fun vm => vm.name == "a")).length = 2 := by
  exact ⟨rfl, rfl⟩

/-- C9 (amended). For every registry that passes validation, the `vms`
list is present and non-empty, `current` is present, and `current`
resolves to AT LEAST one entry of `vms`; uniqueness is not guaranteed
(lookups use the first matching entry). -/
theorem c9_validated_current_resolves (r : RawRegistry)
    (h : _validate r = Except.ok ()) :
    ∃ vms current, r.vms = some vms ∧ r.current = some current ∧
      vms ≠ [] ∧ ∃ vm ∈ vms, vm.name = current := by
  obtain ⟨vms, cur, hv, hc, vm, hmem, hname⟩ := (validate_ok_iff r).mp h
  exact ⟨vms, cur, hv, hc, List.ne_nil_of_mem hmem, vm, hmem, hname⟩

/-- Witness for C9 (amended), applied to a concrete validated registry. -/
theorem c9_witness :
    ∃ vms current,
      (RawRegistry.mk (some [⟨"x", "1"⟩]) (some "x")).vms = some vms ∧
      (RawRegistry.mk (some [⟨"x", "1"⟩]) (some "x")).current = some current ∧
      vms ≠ [] ∧ ∃ vm ∈ vms, vm.name = current :=
  c9_validated_current_resolves ⟨some [⟨"x", "1"⟩], some "x"⟩ rfl

/-- C1. The claim is false on the code: `JsonFile.modify` writes back
with validation, and `JsonFile.write` validates BEFORE opening the
file, so removing the current VM or selecting an absent name raises
`InvalidDataError` at write time (the mutation does NOT succeed) and
the persisted registry is left unchanged. -/
theorem c1_counterexample_fail_at_write :
    remove_vm_op "a" (.data ⟨some [⟨"a", "x"⟩], some "a"⟩) =
      Except.error (.invalidData "Current VM a does not exist in config") ∧
    set_current_vm_op "b" (.data ⟨some [⟨"a", "x"⟩], some "a"⟩) =
      Except.error (.invalidData "Current VM b does not exist in config") ∧
    runOp (remove_vm_op "a") (.data ⟨some [⟨"a", "x"⟩], some "a"⟩) =
      (.data ⟨some [⟨"a", "x"⟩], some "a"⟩,
        some (.invalidData "Current VM a does not exist in config")) ∧
    runOp (set_current_vm_op "b") (.data ⟨some [⟨"a", "x"⟩], some "a"⟩) =
      (.data ⟨some [⟨"a", "x"⟩], some "a"⟩,
        some (.invalidData "Current VM b does not exist in config")) := by
  exact ⟨rfl, rfl, rfl, rfl⟩

/-- C1 (amended). `remove(name)` on a valid registry whose current
equals `name`, and `select(name)` for a name absent from `vms`, are
rejected at write time: the `modifyInPlace` raises `InvalidDataError`
before the file is opened, the persisted registry stays unchanged, and
the next read therefore still succeeds (fail-early, not fail-late). -/
theorem c1_mutations_fail_early (r : RawRegistry) (name selectName : String)
    (hv : _validate r = Except.ok ()) (hc : r.current = some name)
    (hs : find_vm_config_raw r selectName = none) :
    (∃ msg, runOp (remove_vm_op name) (.data r) =
      (.data r, some (.invalidData msg))) ∧
    (∃ msg, runOp (set_current_vm_op selectName) (.data r) =
      (.data r, some (.invalidData msg))) ∧
    jf_read true (.data r) = Except.ok r := by
  obtain ⟨vms, hvms⟩ := validate_ok_vms r hv
  have hread : jf_read true (.data r) = Except.ok r := by
    simp [jf_read, hv]
  refine ⟨?_, ?_, hread⟩
  · refine ⟨"Current VM " ++ name ++ " does not exist in config", ?_⟩
    have hrm : remove_vm_fn name r =
        { r with vms := some (vms.filter (fun vm => vm.name != name)) } := by
      simp [remove_vm_fn, hvms]
    have hval : _validate (remove_vm_fn name r) =
        Except.error (.invalidData
          ("Current VM " ++ name ++ " does not exist in config")) := by
      rw [hrm]
      simp [_validate, hc, find_vm_config_filter_ne]
    simp [runOp, remove_vm_op, jf_modify, hread, jf_write, hval]
  · refine ⟨"Current VM " ++ selectName ++ " does not exist in config", ?_⟩
    have hfind : find_vm_config vms selectName = none := by
      rw [find_vm_config_raw, hvms] at hs
      exact hs
    have hval : _validate (set_current_vm_fn selectName r) =
        Except.error (.invalidData
          ("Current VM " ++ selectName ++ " does not exist in config")) := by
      simp [set_current_vm_fn, _validate, hvms, hfind]
    simp [runOp, set_current_vm_op, jf_modify, hread, jf_write, hval]

/-- Witness for C1 (amended), applied to a concrete two-entry registry:
removing the current entry and selecting an absent name both roll back. -/
theorem c1_witness :
    (∃ msg, runOp (remove_vm_op "a") (.data ⟨some [⟨"a", "x"⟩, ⟨"b", "y"⟩], some "a"⟩) =
      (.data ⟨some [⟨"a", "x"⟩, ⟨"b", "y"⟩], some "a"⟩, some (.invalidData msg))) ∧
    (∃ msg, runOp (set_current_vm_op "zzz") (.data ⟨some [⟨"a", "x"⟩, ⟨"b", "y"⟩], some "a"⟩) =
      (.data ⟨some [⟨"a", "x"⟩, ⟨"b", "y"⟩], some "a"⟩, some (.invalidData msg))) ∧
    jf_read true (.data ⟨some [⟨"a", "x"⟩, ⟨"b", "y"⟩], some "a"⟩) =
      Except.ok ⟨some [⟨"a", "x"⟩, ⟨"b", "y"⟩], some "a"⟩ :=
  c1_mutations_fail_early ⟨some [⟨"a", "x"⟩, ⟨"b", "y"⟩], some "a"⟩ "a" "zzz" rfl rfl rfl

/-- C7. The claim is false on the code: `Config.create` performs no
existence check at all — applied to a backing location that already
holds a registry, it succeeds and replaces the content (the
create-only-when-absent routing lives in the CLI add flow of
vbox/__main__.py, outside `create`). -/
theorem c7_counterexample_create_overwrites :
    create_op "b" "y" (.data ⟨some [⟨"a", "x"⟩], some "a"⟩) =
      Except.ok (.data ⟨some [⟨"b", "y"⟩], some "b"⟩) := by
  exact rfl

/-- C7 (amended). `create(name, address)` never fails because of an
existing registry: for EVERY prior file state it succeeds and persists
a registry containing exactly one entry with the given name and address
and with `current = name`, replacing whatever was there. -/
theorem c7_create_unconditional (name address : String) (fs : FileState) :
    create_op name address fs =
      Except.ok (.data ⟨some [⟨name, address⟩], some name⟩) := by
  simp [create_op, jf_write, _validate, find_vm_config, List.find?_cons]

/-- C10. Every mutating registry operation run with validation enabled
(create, add-or-update, remove, select) only ever persists data that
passes `_validate`, because `JsonFile.write` validates before the file
is opened; and any operation that raises leaves the file unchanged. -/
theorem c10_no_invalid_persist (name address : String) (fs newFs : FileState)
    (h : create_op name address fs = Except.ok newFs ∨
      add_or_update_vm_op name address fs = Except.ok newFs ∨
      remove_vm_op name fs = Except.ok newFs ∨
      set_current_vm_op name fs = Except.ok newFs) :
    (∃ r, newFs = .data r ∧ _validate r = Except.ok ()) ∧
    ∀ (op : FileState → Except JsonError FileState) (e : JsonError),
      op fs = Except.error e → runOp op fs = (fs, some e) := by
  constructor
  · have hwrite : ∀ (r : RawRegistry), jf_write true r = Except.ok newFs →
        ∃ r', newFs = .data r' ∧ _validate r' = Except.ok () := by
      intro r hw
      cases hval : _validate r with
      | error e => simp [jf_write, hval] at hw
      | ok u =>
        cases u
        refine ⟨r, ?_, hval⟩
        simp [jf_write, hval] at hw
        exact hw.symm
    have hmodify : ∀ (f : RawRegistry → RawRegistry),
        jf_modify true f fs = Except.ok newFs →
        ∃ r', newFs = .data r' ∧ _validate r' = Except.ok () := by
      intro f hm
      rw [jf_modify] at hm
      cases hr : jf_read true fs with
      | error e => rw [hr] at hm; cases hm
      | ok r => rw [hr] at hm; exact hwrite (f r) hm
    rcases h with h | h | h | h
    · exact hwrite _ h
    · exact hmodify _ h
    · exact hmodify _ h
    · exact hmodify _ h
  · intro op e hop
    simp [runOp, hop]

/-- Witness for C10: creating a registry in an absent file persists
validated data. -/
theorem c10_witness :
    ∃ r, (FileState.data ⟨some [⟨"a", "x"⟩], some "a"⟩) = FileState.data r ∧
      _validate r = Except.ok () :=
  (c10_no_invalid_persist "a" "x" FileState.absent
    (.data ⟨some [⟨"a", "x"⟩], some "a"⟩) (Or.inl rfl)).1

lemma find_vm_config_cons (vm : VMConfig) (l : List VMConfig) (n : String) :
    find_vm_config (vm :: l) n =
      if vm.name == n then some vm else find_vm_config l n := by
  rw [find_vm_config, List.find?_cons]
  cases h : vm.name == n <;> simp [h, find_vm_config]

lemma find_vm_config_append_of_none (l m : List VMConfig) (n : String)
    (h : find_vm_config l n = none) :
    find_vm_config (l ++ m) n = find_vm_config m n := by
  rw [find_vm_config, List.find?_append]
  rw [find_vm_config] at h
  simp [h, find_vm_config]

lemma updateFirstAddress_append_of_none (name address : String)
    (l m : List VMConfig) (h : find_vm_config l name = none) :
    updateFirstAddress name address (l ++ m) =
      l ++ updateFirstAddress name address m := by
  induction l with
  | nil => simp
  | cons vm rest ih =>
    rw [find_vm_config_cons] at h
    cases hvm : vm.name == name with
    | true => simp [hvm] at h
    | false =>
      simp only [hvm, Bool.false_eq_true, if_false] at h
      simp [updateFirstAddress, hvm, ih h]

lemma updateFirstAddress_idem (name address : String) (l : List VMConfig) :
    updateFirstAddress name address (updateFirstAddress name address l) =
      updateFirstAddress name address l := by
  induction l with
  | nil => rfl
  | cons vm rest ih =>
    cases hvm : vm.name == name with
    | true => simp [updateFirstAddress, hvm]
    | false => simp [updateFirstAddress, hvm, ih]

lemma find_vm_config_updateFirstAddress (name address : String)
    (l : List VMConfig) (vm : VMConfig) (h : find_vm_config l name = some vm) :
    find_vm_config (updateFirstAddress name address l) name =
      some { vm with address := address } := by
  induction l with
  | nil => simp [find_vm_config] at h
  | cons u rest ih =>
    rw [find_vm_config_cons] at h
    cases hu : u.name == name with
    | true =>
      rw [hu] at h
      simp only [if_pos rfl] at h
      cases h
      simp [updateFirstAddress, hu, find_vm_config_cons]
    | false =>
      rw [hu] at h
      simp only [if_neg (by simp : ¬ (false = true))] at h
      simp [updateFirstAddress, hu, find_vm_config_cons, ih h]

lemma updateFirstAddress_map_name (name address : String) (l : List VMConfig) :
    (updateFirstAddress name address l).map VMConfig.name =
      l.map VMConfig.name := by
  induction l with
  | nil => rfl
  | cons vm rest ih =>
    cases hvm : vm.name == name with
    | true => simp [updateFirstAddress, hvm]
    | false => simp [updateFirstAddress, hvm, ih]

lemma find_vm_config_first_match (name address : String) (l : List VMConfig)
    (vm : VMConfig) (h : find_vm_config l name = some vm) :
    ∃ k, l.get? k = some vm ∧ vm.name = name ∧
      (∀ j, j < k → ∀ u, l.get? j = some u → u.name ≠ name) ∧
      updateFirstAddress name address l = l.set k ⟨vm.name, address⟩ := by
  induction l with
  | nil => simp [find_vm_config] at h
  | cons u rest ih =>
    rw [find_vm_config_cons] at h
    cases hu : u.name == name with
    | true =>
      rw [hu] at h
      simp only [if_pos rfl] at h
      cases h
      refine ⟨0, rfl, by simpa using hu, fun j hj => absurd hj (Nat.not_lt_zero j), ?_⟩
      simp [updateFirstAddress, hu]
    | false =>
      rw [hu] at h
      simp only [if_neg (by simp : ¬ (false = true))] at h
      obtain ⟨k, hget, hname, hbefore, hupd⟩ := ih h
      refine ⟨k + 1, hget, hname, ?_, ?_⟩
      · intro j hj v hv
        cases j with
        | zero =>
          cases hv
          simpa using hu
        | succ j =>
          exact hbefore j (Nat.lt_of_succ_lt_succ hj) v hv
      · simp [updateFirstAddress, hu, hupd]

lemma validate_add_or_update (name address : String) (r : RawRegistry)
    (hv : _validate r = Except.ok ()) :
    _validate (add_or_update_vm_fn name address r) = Except.ok () := by
  obtain ⟨vms, cur, hvms, hcur, vm0, hmem, hname⟩ := (validate_ok_iff r).mp hv
  rw [validate_ok_iff]
  cases hfind : find_vm_config vms name with
  | none =>
    refine ⟨vms ++ [⟨name, address⟩], cur, ?_, ?_, vm0, List.mem_append_left _ hmem, hname⟩
    · simp [add_or_update_vm_fn, hvms, hfind]
    · simp [add_or_update_vm_fn, hvms, hfind, hcur]
  | some vm =>
    refine ⟨updateFirstAddress name address vms, cur, ?_, ?_, ?_⟩
    · simp [add_or_update_vm_fn, hvms, hfind]
    · simp [add_or_update_vm_fn, hvms, hfind, hcur]
    · have hmap : cur ∈ (updateFirstAddress name address vms).map VMConfig.name := by
        rw [updateFirstAddress_map_name]
        exact List.mem_map.mpr ⟨vm0, hmem, hname⟩
      obtain ⟨vm1, hmem1, hname1⟩ := List.mem_map.mp hmap
      exact ⟨vm1, hmem1, hname1⟩

lemma add_or_update_vm_fn_idem (name address : String) (r : RawRegistry) :
    add_or_update_vm_fn name address (add_or_update_vm_fn name address r) =
      add_or_update_vm_fn name address r := by
  cases hvms : r.vms with
  | none => simp [add_or_update_vm_fn, hvms]
  | some vms =>
    cases hfind : find_vm_config vms name with
    | some vm =>
      have h1 : add_or_update_vm_fn name address r =
          { r with vms := some (updateFirstAddress name address vms) } := by
        simp [add_or_update_vm_fn, hvms, hfind]
      rw [h1]
      have h2 := find_vm_config_updateFirstAddress name address vms vm hfind
      simp [add_or_update_vm_fn, h2, updateFirstAddress_idem]
    | none =>
      have h1 : add_or_update_vm_fn name address r =
          { r with vms := some (vms ++ [⟨name, address⟩]) } := by
        simp [add_or_update_vm_fn, hvms, hfind]
      rw [h1]
      have h2 : find_vm_config (vms ++ [⟨name, address⟩]) name =
          some ⟨name, address⟩ := by
        rw [find_vm_config_append_of_none _ _ _ hfind, find_vm_config_cons]
        simp
      have h3 : updateFirstAddress name address (vms ++ [⟨name, address⟩]) =
          vms ++ [⟨name, address⟩] := by
        rw [updateFirstAddress_append_of_none name address vms _ hfind]
        simp [updateFirstAddress]
      simp [add_or_update_vm_fn, h2, h3]

/-- C8. For every valid registry, `add_or_update_vm(name, address)`
never changes `current`; when `name` is absent it appends exactly one
new entry; when `name` is present it overwrites the address of the
first entry carrying `name` in place (same position, same name, no
other entry touched); a subsequent `get_vm(name)` lookup returns the
new address; it is idempotent; and the validated modify persists its
result. -/
theorem c8_add_or_update_spec (name address : String) (r : RawRegistry)
    (hv : _validate r = Except.ok ()) :
    (add_or_update_vm_fn name address r).current = r.current ∧
    (∀ vms, r.vms = some vms →
      (find_vm_config vms name = none →
        (add_or_update_vm_fn name address r).vms =
          some (vms ++ [⟨name, address⟩])) ∧
      (∀ vm, find_vm_config vms name = some vm →
        ∃ k, vms.get? k = some vm ∧ vm.name = name ∧
          (∀ j, j < k → ∀ u, vms.get? j = some u → u.name ≠ name) ∧
          (add_or_update_vm_fn name address r).vms =
            some (vms.set k ⟨vm.name, address⟩))) ∧
    find_vm_config_raw (add_or_update_vm_fn name address r) name =
      some ⟨name, address⟩ ∧
    add_or_update_vm_fn name address (add_or_update_vm_fn name address r) =
      add_or_update_vm_fn name address r ∧
    add_or_update_vm_op name address (.data r) =
      Except.ok (.data (add_or_update_vm_fn name address r)) := by
  obtain ⟨vms, hvms⟩ := validate_ok_vms r hv
  refine ⟨?_, ?_, ?_, add_or_update_vm_fn_idem name address r, ?_⟩
  · cases hfind : find_vm_config vms name <;>
      simp [add_or_update_vm_fn, hvms, hfind]
  · intro vms' hvms'
    rw [hvms] at hvms'
    cases hvms'
    constructor
    · intro hfind
      simp [add_or_update_vm_fn, hvms, hfind]
    · intro vm hfind
      obtain ⟨k, hget, hname, hbefore, hupd⟩ :=
        find_vm_config_first_match name address vms vm hfind
      refine ⟨k, hget, hname, hbefore, ?_⟩
      simp [add_or_update_vm_fn, hvms, hfind, hupd]
  · cases hfind : find_vm_config vms name with
    | none =>
      have h2 : find_vm_config (vms ++ [⟨name, address⟩]) name =
          some ⟨name, address⟩ := by
        rw [find_vm_config_append_of_none _ _ _ hfind, find_vm_config_cons]
        simp
      simp [add_or_update_vm_fn, hvms, hfind, find_vm_config_raw, h2]
    | some vm =>
      have h2 := find_vm_config_updateFirstAddress name address vms vm hfind
      obtain ⟨_, _, hname, _, _⟩ :=
        find_vm_config_first_match name address vms vm hfind
      simp [add_or_update_vm_fn, hvms, hfind, find_vm_config_raw, h2, hname]
  · have hval := validate_add_or_update name address r hv
    simp [add_or_update_vm_op, jf_modify, jf_read, hv, jf_write, hval]

/-- Witness for C8: the concrete scenario of the spec, updating the
address of the single entry "dev" and persisting the result. -/
theorem c8_witness :
    add_or_update_vm_op "dev" "10.0.0.9"
        (.data ⟨some [⟨"dev", "10.0.0.5"⟩], some "dev"⟩) =
      Except.ok (.data (add_or_update_vm_fn "dev" "10.0.0.9"
        ⟨some [⟨"dev", "10.0.0.5"⟩], some "dev"⟩)) :=
  (c8_add_or_update_spec "dev" "10.0.0.9"
    ⟨some [⟨"dev", "10.0.0.5"⟩], some "dev"⟩ rfl).2.2.2.2

lemma is_running_iff (name : String) (q : QueryResult) :
    is_running name q = true ↔ get_state name q = Except.ok "running" := by
  cases h : get_state name q with
  | ok s => simp [is_running, h]
  | error e => simp [is_running, h]

/-- C3. `get_state` fails with `StateUnavailableError` exactly on a
process failure of the state query; on captured output it returns the
token of the first line matching the pattern VMState="token" wherever
that line sits in the output, and fails with
`VBoxManageOutputParseError` exactly when no line matches — it never
returns a state value in that case. The final conjunct shows tolerance
of machine-readable fields before and after the VMState line. -/
theorem c3_get_state_spec (name : String) :
    get_state name QueryResult.failure =
      Except.error (.stateUnavailable name) ∧
    (∀ text, get_state name (QueryResult.output text) ≠
      Except.error (.stateUnavailable name)) ∧
    (∀ text, get_state name (QueryResult.output text) =
        Except.error (.outputParseError name) ↔
      ∀ line ∈ splitLines text, vmStateLineToken line = none) ∧
    (∀ text token, get_state name (QueryResult.output text) = Except.ok token →
      ∃ line ∈ splitLines text, vmStateLineToken line = some token) ∧
    get_state name (QueryResult.output "cfgfile=\"a\"\nVMState=\"paused\"\nrest=1") =
      Except.ok "paused" := by
  refine ⟨rfl, ?_, ?_, ?_, rfl⟩
  · intro text
    cases h : (splitLines text).findSome? vmStateLineToken <;>
      simp [get_state, h]
  · intro text
    cases h : (splitLines text).findSome? vmStateLineToken with
    | none =>
      have hall := List.findSome?_eq_none_iff.mp h
      simp only [get_state, h]
      exact ⟨fun _ => hall, fun _ => trivial⟩
    | some token =>
      simp only [get_state, h]
      constructor
      · intro hcontra
        cases hcontra
      · intro hall
        obtain ⟨line, hmem, hline⟩ := List.exists_of_findSome?_eq_some h
        rw [hall line hmem] at hline
        cases hline
  · intro text token h
    rw [get_state] at h
    cases hf : (splitLines text).findSome? vmStateLineToken with
    | none => rw [hf] at h; cases h
    | some tok =>
      rw [hf] at h
      cases h
      exact List.exists_of_findSome?_eq_some hf

/-- Witness for C3: the VMState line is found in a concrete blob. -/
theorem c3_witness :
    ∃ line ∈ splitLines "VMState=\"running\"",
      vmStateLineToken line = some "running" :=
  (c3_get_state_spec "vm").2.2.2.1 "VMState=\"running\"" "running" rfl

/-- C6. `is_running` never propagates `StateUnavailableError` or
`VBoxManageOutputParseError`: it returns a Bool for every input, is
false whenever `get_state` fails, and is true exactly when `get_state`
succeeds with the literal token "running". -/
theorem c6_is_running_spec (name : String) (q : QueryResult) :
    (is_running name q = true ↔ get_state name q = Except.ok "running") ∧
    ∀ e, get_state name q = Except.error e → is_running name q = false := by
  refine ⟨is_running_iff name q, ?_⟩
  intro e h
  simp [is_running, h]

/-- Witness for C6: a failed state query is reported as not running. -/
theorem c6_witness : is_running "vm" QueryResult.failure = false :=
  (c6_is_running_spec "vm" QueryResult.failure).2
    (.stateUnavailable "vm") rfl

lemma connectLoop_all_fail (ssh : Nat → Bool) (interval : Nat) :
    ∀ (r idx slept : Nat), (∀ i, i < r → ssh (idx + i) = false) →
      connectLoop ssh interval r idx slept =
        (false, idx + r, slept + r * interval) := by
  intro r
  induction r with
  | zero => intro idx slept _; simp [connectLoop]
  | succ n ih =>
    intro idx slept hfail
    have h0 : ssh idx = false := by simpa using hfail 0 (Nat.succ_pos n)
    rw [connectLoop, h0]
    simp only [Bool.false_eq_true, if_false]
    rw [ih (idx + 1) (slept + interval)
      (fun i hi => by
        have := hfail (i + 1) (Nat.succ_lt_succ hi)
        simpa [Nat.add_assoc, Nat.add_comm 1 i] using this)]
    refine congrArg _ ?_
    refine Prod.ext ?_ ?_ <;> simp <;> ring

lemma connectLoop_first_success (ssh : Nat → Bool) (interval : Nat) :
    ∀ (k r idx slept : Nat), k < r →
      (∀ i, i < k → ssh (idx + i) = false) → ssh (idx + k) = true →
      connectLoop ssh interval r idx slept =
        (true, idx + k + 1, slept + k * interval) := by
  intro k
  induction k with
  | zero =>
    intro r idx slept hr _ hk
    cases r with
    | zero => cases hr
    | succ n =>
      rw [connectLoop]
      simp only [Nat.add_zero] at hk
      rw [hk]
      simp
  | succ k ih =>
    intro r idx slept hr hfail hk
    cases r with
    | zero => cases hr
    | succ n =>
      have h0 : ssh idx = false := by simpa using hfail 0 (Nat.succ_pos k)
      rw [connectLoop, h0]
      simp only [Bool.false_eq_true, if_false]
      rw [ih n (idx + 1) (slept + interval) (Nat.lt_of_succ_lt_succ hr)
        (fun i hi => by
          have := hfail (i + 1) (Nat.succ_lt_succ hi)
          simpa [Nat.add_assoc, Nat.add_comm 1 i] using this)
        (by
          have : idx + 1 + k = idx + (k + 1) := by ring
          rw [this]
          exact hk)]
      refine Prod.ext rfl (Prod.ext ?_ ?_) <;> simp <;> ring

lemma connect_eq (ssh : Nat → Bool) (address : String) (tries interval : Nat) :
    connect ssh address tries interval =
      { ok := (connectLoop ssh interval tries 0 0).1,
        sshCalls := (connectLoop ssh interval tries 0 0).2.1,
        totalSleep := (connectLoop ssh interval tries 0 0).2.2,
        failure :=
          if (connectLoop ssh interval tries 0 0).1 then none
          else some (.connectionFailure address tries) } := rfl

/-- C5. The bounded retry loop of `connect`: against an adapter whose
first `tries` attempts all fail, ssh runs exactly `tries` times, each
failure sleeps the full interval, and `ConnectionFailure(address,
tries)` is raised; against an adapter failing `k < tries` times and
then succeeding, ssh runs exactly `k + 1` times, the accumulated sleep
is `k * interval` (zero when the interval is zero), and the call
returns success. -/
theorem c5_connect_spec (ssh : Nat → Bool) (address : String)
    (tries interval : Nat) :
    ((∀ i, i < tries → ssh i = false) →
      connect ssh address tries interval =
        ⟨false, tries, tries * interval,
          some (.connectionFailure address tries)⟩) ∧
    (∀ k, k < tries → (∀ i, i < k → ssh i = false) → ssh k = true →
      connect ssh address tries interval =
        ⟨true, k + 1, k * interval, none⟩) := by
  constructor
  · intro hfail
    have h := connectLoop_all_fail ssh interval tries 0 0
      (fun i hi => by simpa using hfail i hi)
    rw [connect_eq, h]
    simp
  · intro k hk hfail hsucc
    have h := connectLoop_first_success ssh interval k tries 0 0 hk
      (fun i hi => by simpa using hfail i hi) (by simpa using hsucc)
    rw [connect_eq, h]
    simp

/-- Witness for C5: two tries against an always-failing adapter, zero
retry interval — exactly two ssh calls, zero sleep, failure carrying
the try count. -/
theorem c5_witness :
    connect (fun _ => false) "host" 2 0 =
      ⟨false, 2, 0, some (.connectionFailure "host" 2)⟩ := by
  have h := (c5_connect_spec (fun _ => false) "host" 2 0).1 (fun i _ => rfl)
  simpa using h

lemma waitLoop_poweroff (name : String) (queries : Nat → QueryResult)
    (r idx : Nat) :
    waitLoop name queries r (some "poweroff") idx = (some "poweroff", idx) := by
  cases r <;> simp [waitLoop]

lemma waitLoop_polls_ge (name : String) (queries : Nat → QueryResult) :
    ∀ (r : Nat) (state : Option String) (idx : Nat),
      idx ≤ (waitLoop name queries r state idx).2 := by
  intro r
  induction r with
  | zero => intro state idx; exact Nat.le_refl idx
  | succ n ih =>
    intro state idx
    rw [waitLoop]
    by_cases h : state = some "poweroff"
    · simp [h]
    · simp only [if_neg h]
      exact Nat.le_trans (Nat.le_succ idx) (ih _ (idx + 1))

lemma waitLoop_exhaust (name : String) (queries : Nat → QueryResult) :
    ∀ (r : Nat) (state : Option String) (idx : Nat),
      state ≠ some "poweroff" →
      (∀ k, k < r → tryGetState name (queries (idx + k)) ≠ some "poweroff") →
      (waitLoop name queries r state idx).1 ≠ some "poweroff" ∧
        (waitLoop name queries r state idx).2 = idx + r := by
  intro r
  induction r with
  | zero => intro state idx hs _; exact ⟨hs, rfl⟩
  | succ n ih =>
    intro state idx hs hall
    rw [waitLoop]
    simp only [if_neg hs]
    have h0 : tryGetState name (queries idx) ≠ some "poweroff" := by
      simpa using hall 0 (Nat.succ_pos n)
    have := ih (tryGetState name (queries idx)) (idx + 1) h0
      (fun k hk => by
        have := hall (k + 1) (Nat.succ_lt_succ hk)
        simpa [Nat.add_assoc, Nat.add_comm 1 k] using this)
    refine ⟨this.1, ?_⟩
    rw [this.2]
    ring

lemma waitLoop_first_poweroff (name : String) (queries : Nat → QueryResult) :
    ∀ (k r : Nat) (state : Option String) (idx : Nat),
      state ≠ some "poweroff" → k < r →
      tryGetState name (queries (idx + k)) = some "poweroff" →
      (∀ j, j < k → tryGetState name (queries (idx + j)) ≠ some "poweroff") →
      waitLoop name queries r state idx = (some "poweroff", idx + k + 1) := by
  intro k
  induction k with
  | zero =>
    intro r state idx hs hr hk _
    cases r with
    | zero => cases hr
    | succ n =>
      rw [waitLoop]
      simp only [if_neg hs]
      simp only [Nat.add_zero] at hk
      rw [hk, waitLoop_poweroff]
  | succ k ih =>
    intro r state idx hs hr hk hbefore
    cases r with
    | zero => cases hr
    | succ n =>
      rw [waitLoop]
      simp only [if_neg hs]
      have h0 : tryGetState name (queries idx) ≠ some "poweroff" := by
        simpa using hbefore 0 (Nat.succ_pos k)
      have heq : idx + 1 + k = idx + (k + 1) := by ring
      rw [ih n (tryGetState name (queries idx)) (idx + 1) h0
        (Nat.lt_of_succ_lt_succ hr)
        (by rw [heq]; exact hk)
        (fun j hj => by
          have := hbefore (j + 1) (Nat.succ_lt_succ hj)
          simpa [Nat.add_assoc, Nat.add_comm 1 j] using this)]
      refine Prod.ext rfl ?_
      simp
      ring

/-- C4. Provided the acpipowerbutton subprocess itself does not raise,
`stop` issues the graceful-shutdown request exactly when the first
state query reports the VM running, then ALWAYS runs the bounded
shutdown-wait poll loop (at least one state poll happens even when the
VM was already not running); the loop treats failed state queries as
not-yet-poweroff (they appear as a `tryGetState` value other than
`some "poweroff"`), stops right after the first poll whose state equals
the literal poweroff token (after exactly 1 poll when the first wait
poll reports poweroff), and when all 21 polls of the 20-try budget miss
poweroff it raises `ShutdownFailure(name)`. -/
theorem c4_stop_spec (name : String) (queries : Nat → QueryResult)
    (shutdownOk : Bool) (hok : shutdownOk = true) :
    ∃ res : StopResult, stop name queries shutdownOk = some res ∧
      (res.shutdownRequested = true ↔
        get_state name (queries 0) = Except.ok "running") ∧
      1 ≤ res.wait.statePolls ∧
      (∀ k, k ≤ 20 → tryGetState name (queries (k + 1)) = some "poweroff" →
        (∀ j, j < k → tryGetState name (queries (j + 1)) ≠ some "poweroff") →
        res.wait.result = Except.ok () ∧ res.wait.statePolls = k + 1) ∧
      ((∀ k, k ≤ 20 → tryGetState name (queries (k + 1)) ≠ some "poweroff") →
        res.wait.result = Except.error (.shutdownFailure name) ∧
          res.wait.statePolls = 21) := by
  subst hok
  refine ⟨{ shutdownRequested := is_running name (queries 0),
            wait := wait_for_shutdown name (fun i => queries (i + 1)) 20 }, ?_, ?_, ?_, ?_, ?_⟩
  · rw [stop]
    simp
  · exact is_running_iff name (queries 0)
  · rw [wait_for_shutdown]
    exact waitLoop_polls_ge name _ 20 _ 1
  · intro k hk hpow hbefore
    rw [wait_for_shutdown]
    cases k with
    | zero =>
      have h0 : tryGetState name (queries (0 + 1)) = some "poweroff" := hpow
      have hloop := waitLoop_poweroff name (fun i => queries (i + 1)) 20 1
      simp only [Nat.zero_add] at h0
      constructor
      · simp only [h0, hloop]
        simp
      · simp only [h0, hloop]
    | succ j =>
      have hs : tryGetState name (queries 1) ≠ some "poweroff" := by
        simpa using hbefore 0 (Nat.succ_pos j)
      have hloop := waitLoop_first_poweroff name (fun i => queries (i + 1))
        j 20 (tryGetState name (queries 1)) 1 hs
        (by omega)
        (by
          have heq : 1 + j + 1 = j + 1 + 1 := by ring
          show tryGetState name (queries (1 + j + 1)) = some "poweroff"
          rw [heq]
          exact hpow)
        (fun i hi => by
          have := hbefore (i + 1) (Nat.succ_lt_succ hi)
          have heq : 1 + i + 1 = i + 1 + 1 := by ring
          show tryGetState name (queries (1 + i + 1)) ≠ some "poweroff"
          rw [heq]
          exact this)
      constructor
      · simp only [hloop]
        simp
      · simp only [hloop]
        simp
        omega
  · intro hall
    rw [wait_for_shutdown]
    have hs : tryGetState name (queries 1) ≠ some "poweroff" := by
      simpa using hall 0 (by omega)
    have hloop := waitLoop_exhaust name (fun i => queries (i + 1)) 20
      (tryGetState name (queries 1)) 1 hs
      (fun k hk => by
        have := hall (k + 1) (by omega)
        have heq : 1 + k + 1 = k + 1 + 1 := by ring
        show tryGetState name (queries (1 + k + 1)) ≠ some "poweroff"
        rw [heq]
        exact this)
    constructor
    · simp only [if_neg hloop.1]
    · simp only [hloop.2]

/-- Witness for C4: every state query reports poweroff, so stop makes
no shutdown request, the wait loop succeeds after exactly one poll. -/
theorem c4_witness :
    ∃ res : StopResult,
      stop "vm" (fun _ => QueryResult.output "VMState=\"poweroff\"") true = some res ∧
      res.shutdownRequested = false ∧
      res.wait.result = Except.ok () ∧ res.wait.statePolls = 1 := by
  obtain ⟨res, hres, hreq, _, hhit, _⟩ :=
    c4_stop_spec "vm" (fun _ => QueryResult.output "VMState=\"poweroff\"") true rfl
  have h := hhit 0 (by omega) rfl (fun j hj => absurd hj (Nat.not_lt_zero j))
  refine ⟨res, hres, ?_, h.1, h.2⟩
  by_contra hcontra
  have : res.shutdownRequested = true := by
    cases hb : res.shutdownRequested
    · exact absurd hb hcontra
    · rfl
  have hrun := hreq.mp this
  have hgs : get_state "vm" (QueryResult.output "VMState=\"poweroff\"") =
      Except.ok "poweroff" := rfl
  rw [hgs] at hrun
  injection hrun with hr
  exact absurd hr (by decide)

end VBox
